import Mathlib

/-!
Verification development for the PolkArena repository.

We shallowly embed the short-code generator, the shareable-URL helpers,
the duration formatter (all from `src/unnamed/part_000`, a utility module)
and the event-creation submission pipeline (`handleSubmit` from
`src/polkadot-hackathons/src/app/events/create/page.tsx`).

Randomness (`Math.random`), date parsing (`new Date`), `parseInt`, and the
remote lookups are external effects; they are modelled as explicit function
parameters, so every definition is executable and the data flow of the
source is preserved exactly.
-/

namespace PolkArena

/-- The restricted alphabet from `generateShortCode`
(the source string `23456789abcdefghjkmnpqrstuvwxyz`;
note it contains 31 characters). -/
def alphabet : List Char := "23456789abcdefghjkmnpqrstuvwxyz".data

/-- One random draw, `characters.charAt(Math.floor(Math.random() * characters.length))`:
an index below `characters.length = 31`. -/
def charAt (i : Fin 31) : Char := alphabet.get (Fin.cast (by decide) i)

/-- Membership test of the regex class `[a-z0-9]` used in the
seed-cleaning `.replace` call. -/
def isSeedChar (c : Char) : Bool := ('a' ≤ c && c ≤ 'z') || ('0' ≤ c && c ≤ '9')

/-- Cleaned seed `eventName.toLowerCase().replace(/[^a-z0-9]/g, ...)`, deleting
every character outside the class, as a character list. -/
def cleanSeedList (s : String) : List Char :=
  (s.data.map Char.toLower).filter isSeedChar

/-- Truncation `.substring(0, 3)` of the cleaned seed. -/
def seedPrefixList (s : String) : List Char := (cleanSeedList s).take 3

/-- Source constant `targetLength = 7`. -/
def targetLength : Nat := 7

/-- The value of `result` before the fill loop: the candidate seed-derived
leading characters if the (truthy) event name cleans to at least 2
characters, otherwise empty. -/
def basePart (eventName : Option String) : List Char :=
  match eventName with
  | some s =>
    if s = "" then []
    else if 2 ≤ (seedPrefixList s).length then seedPrefixList s else []
  | none => []

/-- Body of `generateShortCode` as a character list: the base part followed by
random draws until the target length is reached.  `rand i` is the i-th
random index drawn by this call. -/
def gscList (eventName : Option String) (rand : Nat → Fin 31) : List Char :=
  basePart eventName ++
    (List.range (targetLength - (basePart eventName).length)).map (fun i => charAt (rand i))

/-- Function `generateShortCode(eventName?)` with the random source made explicit. -/
def generateShortCode (eventName : Option String) (rand : Nat → Fin 31) : String :=
  String.mk (gscList eventName rand)

/-- Result of one `.select(...).eq(...).single()` lookup call:
`data` is the row id when a row was found, `error` is the error code
(for instance `PGRST116`, "no rows") when the call errored. -/
structure LookupResult where
  data : Option String
  error : Option String
deriving DecidableEq

/-- The availability test of the loop body:
`error && error.code === "PGRST116"`. -/
def isCodeAvailable (r : LookupResult) : Bool :=
  match r.error with
  | some c => c == "PGRST116"
  | none => false

/-- Source constant `maxAttempts = 10`. -/
def maxAttempts : Nat := 10

/-- The `while (attempts < maxAttempts)` loop of `generateUniqueShortCode`,
with `fuel = maxAttempts - attempts` remaining iterations.  `rands k` is the
random source of the k-th `generateShortCode` call, and `lookup k` the result
of the k-th database lookup (0-based).  The second component of the result
counts the lookups performed.  When the fuel runs out the fallback
`generateShortCode()` (no seed) runs with no further lookup. -/
def guscAux (eventName : Option String) (rands : Nat → Nat → Fin 31)
    (lookup : Nat → LookupResult) : Nat → Nat → String × Nat
  | 0, attempts => (generateShortCode none (rands attempts), attempts)
  | fuel + 1, attempts =>
    let shortCode := generateShortCode eventName (rands attempts)
    if isCodeAvailable (lookup attempts) then (shortCode, attempts + 1)
    else guscAux eventName rands lookup fuel (attempts + 1)

/-- Function `generateUniqueShortCode(eventName?)`: the bounded retry loop followed by
the unverified fallback, returning the code together with the number of
lookups issued. -/
def generateUniqueShortCode (eventName : Option String) (rands : Nat → Nat → Fin 31)
    (lookup : Nat → LookupResult) : String × Nat :=
  guscAux eventName rands lookup maxAttempts 0

/-- The hardcoded fallback origin of `createShareableEventURL`
(`window` is absent in the pure model, as in a server-side render). -/
def fallbackOrigin : String := "https://polkarena.montaq.org"

/-- Function `createShareableEventURL(shortCode, baseUrl?)`:
`baseUrl || origin` (JS truthiness: an empty override also falls back),
then the origin, the literal segment `/e/` and the code, concatenated. -/
def createShareableEventURL (shortCode : String) (baseUrl : Option String) : String :=
  (match baseUrl with
   | some b => if b = "" then fallbackOrigin else b
   | none => fallbackOrigin) ++ "/e/" ++ shortCode

/-- The character class `[a-z0-9]` with the `i` flag, i.e. case-insensitive
alphanumeric, from the pattern `/\/e\/([a-z0-9]+)/i`. -/
def isCodeChar (c : Char) : Bool :=
  ('a' ≤ c && c ≤ 'z') || ('A' ≤ c && c ≤ 'Z') || ('0' ≤ c && c ≤ '9')

/-- Try to match `/\/e\/([a-z0-9]+)/i` at the current position: a slash, the
letter `e` (case-insensitive), a slash, then a non-empty greedy run of
code characters, which is the captured group. -/
def matchAt : List Char → Option (List Char)
  | a :: b :: c :: rest =>
    if a = '/' ∧ (b = 'e' ∨ b = 'E') ∧ c = '/' then
      let run := rest.takeWhile isCodeChar
      if run = [] then none else some run
    else none
  | _ => none

/-- `String.prototype.match` with a non-anchored pattern: the first position
at which `matchAt` succeeds wins. -/
def findMatch : List Char → Option (List Char)
  | [] => none
  | c :: rest =>
    match matchAt (c :: rest) with
    | some r => some r
    | none => findMatch rest

/-- Function `extractShortCodeFromURL(url)`: the captured group of the first match of
`/\/e\/([a-z0-9]+)/i`, or null. -/
def extractShortCodeFromURL (url : String) : Option String :=
  (findMatch url.data).map String.mk

/-- Pluralisation used by `formatEventDuration`: the letter s is appended
exactly when the value differs from 1. -/
def plural (n : Int) : String := if n ≠ 1 then "s" else ""

/-- Function `formatEventDuration(startTime, endTime)` over epoch milliseconds
(`new Date(...).getTime()` values; the ISO-string parsing itself is an
external concern).  `Math.floor` of a real division is `Int.fdiv`; the JS
`%` operator is truncating remainder, `Int.tmod`. -/
def formatEventDuration (startMs endMs : Int) : String :=
  let durationMs := endMs - startMs
  let totalMinutes := Int.fdiv durationMs (1000 * 60)
  let hours := Int.fdiv totalMinutes 60
  let minutes := Int.tmod totalMinutes 60
  if hours = 0 then
    toString minutes ++ " minute" ++ plural minutes
  else if minutes = 0 then
    toString hours ++ " hour" ++ plural hours
  else
    toString hours ++ " hour" ++ plural hours ++ " " ++ toString minutes ++ " minute" ++ plural minutes

/-- The `CustomField` interface of the creation page. -/
structure CustomField where
  id : String
  name : String
  type : String
  required : Bool
  options : Option (List String)
deriving DecidableEq

/-- The field appended by `addCustomField`: a fresh time-based id (passed in,
since `Date.now()` is external), empty display name, type `"text"`,
not required, empty option list. -/
def newCustomField (idStr : String) : CustomField :=
  { id := idStr, name := "", type := "text", required := false, options := some [] }

/-- The `formData` state of the creation page (all free-form strings plus
the online flag, exactly the fields of the `useState` initialiser). -/
structure FormData where
  name : String
  description : String
  start_time : String
  end_time : String
  location : String
  is_online : Bool
  participant_limit : String
  tags : String
  registration_deadline : String
  website_url : String
  discord_url : String
  twitter_url : String
  requirements : String
  banner_image_url : String
deriving DecidableEq

/-- The `eventData` payload inserted into the `events` table.  Timestamps are
epoch milliseconds (their ISO rendering is external). -/
structure EventData where
  name : String
  description : String
  start_time : Int
  end_time : Int
  organizer_id : String
  organizer_name : String
  location : Option String
  is_online : Bool
  participant_limit : Option Int
  tags : Option (List String)
  custom_fields : Option (List CustomField)
  registration_deadline : Option Int
  website_url : Option String
  discord_url : Option String
  twitter_url : Option String
  requirements : Option String
  banner_image_url : Option String
  short_code : String
deriving DecidableEq

/-- The external calls `handleSubmit` can issue after validation, in order:
the organizer-profile lookup, the short-code uniqueness lookups inside
`generateUniqueShortCode`, and the `events` insert. -/
inductive ExtCall where
  | profileLookup
  | shortCodeLookup
  | insertEvent
deriving DecidableEq

/-- Coercion `value || null` for an optional free-text form field: the empty
string is falsy and stored as null. -/
def strOrNull (s : String) : Option String := if s = "" then none else some s

/-- Coercion `a || b` for an optional string `a` (absent and empty are both falsy). -/
def jsOrString (a : Option String) (b : String) : String :=
  match a with
  | some s => if s = "" then b else s
  | none => b

/-- JS `String.prototype.split(",")` over the character list: split at every
comma; the empty string yields one empty group. -/
def splitComma : List Char → List (List Char)
  | [] => [[]]
  | c :: rest =>
    if c = ',' then [] :: splitComma rest
    else
      match splitComma rest with
      | [] => [[c]]
      | g :: gs => (c :: g) :: gs

/-- JS `String.prototype.trim()` over the character list: drop leading and
trailing whitespace. -/
def trimChars (l : List Char) : List Char :=
  ((l.dropWhile Char.isWhitespace).reverse.dropWhile Char.isWhitespace).reverse

/-- Computation `formData.tags.split(",").map(tag => tag.trim()).filter(tag => tag.length > 0)`. -/
def tagsArrayOf (s : String) : List String :=
  (((splitComma s.data).map trimChars).filter (fun tag => 0 < tag.length)).map String.mk

/-- The local validation pipeline of `handleSubmit`, in source order:
required fields, date parseability, start-not-in-past, end-after-start, and
the optional registration deadline (parseable, strictly before start, not in
the past).  `parseDate` models `new Date(...).getTime()` with `none` for an
invalid date (NaN).  On success it returns the parsed start, end and
optional deadline used to build the payload. -/
def validateDates (fd : FormData) (parseDate : String → Option Int) (now : Int) :
    Except String (Int × Int × Option Int) :=
  if fd.name = "" ∨ fd.description = "" ∨ fd.start_time = "" ∨ fd.end_time = "" then
    Except.error "Please fill in all required fields"
  else
    match parseDate fd.start_time, parseDate fd.end_time with
    | some startTime, some endTime =>
      if startTime < now then Except.error "Start time cannot be in the past"
      else if endTime ≤ startTime then Except.error "End time must be after start time"
      else if fd.registration_deadline = "" then Except.ok (startTime, endTime, none)
      else
        match parseDate fd.registration_deadline with
        | none => Except.error "Please enter a valid registration deadline"
        | some d =>
          if startTime ≤ d then Except.error "Registration deadline must be before start time"
          else if d < now then Except.error "Registration deadline cannot be in the past"
          else Except.ok (startTime, endTime, some d)
    | none, _ => Except.error "Please enter valid start and end times"
    | some _, none => Except.error "Please enter valid start and end times"

/-- The `eventData` object literal of `handleSubmit`, built from the form
state, the custom-field list and the validated timestamps.  `parseIntJS`
models the JS `parseInt` applied to a non-empty participant limit;
`profileName` is `userProfile?.name` and `userEmail` is `user.email`. -/
def mkEventData (fd : FormData) (customFields : List CustomField)
    (parseIntJS : String → Int) (userId : String)
    (profileName userEmail : Option String) (shortCode : String)
    (startTime endTime : Int) (registrationDeadline : Option Int) : EventData :=
  { name := fd.name
    description := fd.description
    start_time := startTime
    end_time := endTime
    organizer_id := userId
    organizer_name := jsOrString profileName (jsOrString userEmail "Anonymous")
    location := strOrNull fd.location
    is_online := fd.is_online
    participant_limit :=
      if fd.participant_limit = "" then none else some (parseIntJS fd.participant_limit)
    tags := if 0 < (tagsArrayOf fd.tags).length then some (tagsArrayOf fd.tags) else none
    custom_fields := if 0 < customFields.length then some customFields else none
    registration_deadline := registrationDeadline
    website_url := strOrNull fd.website_url
    discord_url := strOrNull fd.discord_url
    twitter_url := strOrNull fd.twitter_url
    requirements := strOrNull fd.requirements
    banner_image_url := strOrNull fd.banner_image_url
    short_code := shortCode }

/-- Function `handleSubmit`: run the local validation pipeline; a validation failure
surfaces its message with no external call issued (empty call trace).
Otherwise the profile lookup, the short-code generation (with its lookups)
and the insert run in order, and the assembled `eventData` is submitted.
The outcomes of the external calls (`profileName`, `userEmail`,
`shortCode`) are parameters. -/
def handleSubmit (fd : FormData) (customFields : List CustomField)
    (parseDate : String → Option Int) (parseIntJS : String → Int) (now : Int)
    (userId : String) (profileName userEmail : Option String)
    (shortCode : String) : Except String EventData × List ExtCall :=
  match validateDates fd parseDate now with
  | Except.error msg => (Except.error msg, [])
  | Except.ok (startTime, endTime, registrationDeadline) =>
    (Except.ok (mkEventData fd customFields parseIntJS userId profileName userEmail
        shortCode startTime endTime registrationDeadline),
     [ExtCall.profileLookup, ExtCall.shortCodeLookup, ExtCall.insertEvent])

/-! Concrete fixtures used by the witness theorems. -/

/-- A fixed random source: every draw is the index 0 (the character `'2'`). -/
def randZero : Nat → Fin 31 := fun _ => 0

/-- A fixed per-attempt family of random sources. -/
def randsZero : Nat → Nat → Fin 31 := fun _ _ => 0

/-- A lookup stub: a row exists on the first two attempts, then "no rows". -/
def lookupAvailAt2 : Nat → LookupResult :=
  fun k => if k < 2 then { data := some "row", error := none }
           else { data := none, error := some "PGRST116" }

/-- A lookup stub that always finds an existing row. -/
def lookupNeverAvail : Nat → LookupResult :=
  fun _ => { data := some "row", error := none }

/-- A lookup stub that always errors with the "no rows" code. -/
def lookupPG : Nat → LookupResult :=
  fun _ => { data := none, error := some "PGRST116" }

/-- A lookup stub that always errors with some other code. -/
def lookupErr500 : Nat → LookupResult :=
  fun _ => { data := none, error := some "500" }

/-- A date-parse stub for the submit fixtures. -/
def parseDateEx : String → Option Int :=
  fun s => if s = "A" then some 1000 else if s = "B" then some 2000
           else if s = "C" then some 1500 else none

/-- A parseInt stub for the submit fixtures. -/
def parseIntEx : String → Int := fun s => if s = "25" then 25 else 0

/-- A form state that passes every local validation (times `"A"`/`"B"` parse
to 1000/2000 under `parseDateEx`). -/
def fdValid : FormData :=
  { name := "Ev", description := "D", start_time := "A", end_time := "B"
    location := "", is_online := false, participant_limit := "", tags := ""
    registration_deadline := "", website_url := "", discord_url := ""
    twitter_url := "", requirements := "", banner_image_url := "" }

/-- Like `fdValid` but with the end time equal to the start time. -/
def fdEqualTimes : FormData := { fdValid with end_time := "A" }

/-- Like `fdValid` but with a registration deadline (1500) after start (1000). -/
def fdBadDeadline : FormData := { fdValid with registration_deadline := "C" }

/-- Like `fdValid` but with optional fields filled in. -/
def fdWithExtras : FormData :=
  { fdValid with location := "Berlin", participant_limit := "25", tags := " a , , b " }

end PolkArena

namespace PolkArena

/-! Short-code generator: basic lemmas. -/

theorem charAt_mem (i : Fin 31) : charAt i ∈ alphabet := by
  unfold charAt
  exact List.get_mem _ _ _

theorem seedPrefixList_length_le (s : String) : (seedPrefixList s).length ≤ 3 := by
  unfold seedPrefixList
  rw [List.length_take]
  exact min_le_left _ _

theorem basePart_length_le (e : Option String) : (basePart e).length ≤ 3 := by
  cases e with
  | none => simp [basePart]
  | some s =>
    simp only [basePart]
    split
    · simp
    · split
      · exact seedPrefixList_length_le s
      · simp

theorem gscList_length (e : Option String) (rand : Nat → Fin 31) :
    (gscList e rand).length = 7 := by
  have h := basePart_length_le e
  simp only [gscList, List.length_append, List.length_map, List.length_range, targetLength]
  omega

theorem mem_basePart_isSeedChar {c : Char} {e : Option String} (h : c ∈ basePart e) :
    isSeedChar c = true := by
  cases e with
  | none => simp [basePart] at h
  | some s =>
    simp only [basePart] at h
    split at h
    · simp at h
    · split at h
      · have h2 : c ∈ cleanSeedList s :=
          List.mem_of_mem_take (by simpa [seedPrefixList] using h)
        simp only [cleanSeedList] at h2
        exact (List.mem_filter.mp h2).2
      · simp at h

theorem mem_fill_alphabet {c : Char} {rand : Nat → Fin 31} {n : Nat}
    (h : c ∈ (List.range n).map (fun i => charAt (rand i))) : c ∈ alphabet := by
  obtain ⟨i, _, rfl⟩ := List.mem_map.mp h
  exact charAt_mem _

/-- C2 fails as stated: for the seed `"oil"` the generated code keeps the
cleaned-seed characters `o`, `i`, `l`, which are outside the restricted
alphabet (which moreover has 31 symbols, not 32). -/
theorem claim_C2_counterexample :
    ¬ (∀ c ∈ (generateShortCode (some "oil") (fun _ => 0)).data, c ∈ alphabet) := by
  decide

/-- C2 (amended): for every seed (including absent) and every random source,
`generateShortCode` returns a string of length exactly 7; every character
beyond the seed-derived leading part — positionally, everything after the
first `(basePart e).length` characters — is drawn from the 31-symbol
alphabet; the leading-part characters themselves are lowercase alphanumeric
(and may fall outside the alphabet); with no seed the leading part is empty
and all 7 characters are from the alphabet. -/
theorem claim_C2 (e : Option String) (rand : Nat → Fin 31) (c : Char) :
    (generateShortCode e rand).length = 7
    ∧ (c ∈ (generateShortCode e rand).data.drop (basePart e).length → c ∈ alphabet)
    ∧ (c ∈ basePart e → isSeedChar c = true)
    ∧ (c ∈ (generateShortCode none rand).data → c ∈ alphabet) := by
  have hdrop : (generateShortCode e rand).data.drop (basePart e).length
      = (List.range (targetLength - (basePart e).length)).map (fun i => charAt (rand i)) := by
    show (gscList e rand).drop (basePart e).length = _
    rw [gscList]
    exact List.drop_left _ _
  refine ⟨gscList_length e rand, fun h => ?_, fun h => mem_basePart_isSeedChar h,
    fun h => ?_⟩
  · rw [hdrop] at h
    exact mem_fill_alphabet h
  · rcases List.mem_append.mp h with hb | hf
    · simp [basePart] at hb
    · exact mem_fill_alphabet hf

theorem claim_C2_witness :
    (generateShortCode (some "My Event!") (fun _ => 0)).length = 7 ∧ '2' ∈ alphabet :=
  ⟨(claim_C2 (some "My Event!") (fun _ => 0) '2').1,
   (claim_C2 (some "My Event!") (fun _ => 0) '2').2.1 (by decide)⟩

/-- C3: if the lowercased seed with all characters outside `[a-z0-9]`
deleted has a first-3-character truncation of length at least 2, the
generated code starts with that truncated leading part; if the cleaned
residue has 0 or 1 characters it is discarded and all 7 characters are
random alphabet draws. -/
theorem claim_C3 (s : String) (rand : Nat → Fin 31) :
    (2 ≤ (seedPrefixList s).length →
      (generateShortCode (some s) rand).data.take (seedPrefixList s).length
        = seedPrefixList s)
    ∧ ((seedPrefixList s).length ≤ 1 →
      (generateShortCode (some s) rand).data
        = (List.range 7).map (fun i => charAt (rand i))) := by
  constructor
  · intro h
    have hs : ¬ s = "" := by
      intro hs
      rw [hs] at h
      simp [seedPrefixList, cleanSeedList] at h
    have hbase : basePart (some s) = seedPrefixList s := by
      simp [basePart, hs, h]
    show (gscList (some s) rand).take (seedPrefixList s).length = seedPrefixList s
    rw [gscList, hbase]
    exact List.take_left _ _
  · intro h
    have hbase : basePart (some s) = [] := by
      simp only [basePart]
      split
      · rfl
      · split
        · omega
        · rfl
    show gscList (some s) rand = (List.range 7).map (fun i => charAt (rand i))
    rw [gscList, hbase]
    simp [targetLength]

theorem claim_C3_witness :
    (generateShortCode (some "My Event!") (fun _ => 0)).data.take
        (seedPrefixList "My Event!").length = seedPrefixList "My Event!"
    ∧ (generateShortCode (some "#1") (fun _ => 0)).data
        = (List.range 7).map (fun _ => charAt 0) :=
  ⟨(claim_C3 "My Event!" (fun _ => 0)).1 (by decide),
   (claim_C3 "#1" (fun _ => 0)).2 (by decide)⟩

/-! The bounded retry loop. -/

theorem guscAux_success (seed : Option String) (rands : Nat → Nat → Fin 31)
    (lookup : Nat → LookupResult) :
    ∀ (n fuel a : Nat), n < fuel →
      (∀ k, a ≤ k → k < a + n → isCodeAvailable (lookup k) = false) →
      isCodeAvailable (lookup (a + n)) = true →
      guscAux seed rands lookup fuel a
        = (generateShortCode seed (rands (a + n)), a + n + 1) := by
  intro n
  induction n with
  | zero =>
    intro fuel a hlt hfail havail
    cases fuel with
    | zero => omega
    | succ f =>
      rw [Nat.add_zero] at havail ⊢
      simp [guscAux, havail]
  | succ j ih =>
    intro fuel a hlt hfail havail
    cases fuel with
    | zero => omega
    | succ f =>
      have h0 : isCodeAvailable (lookup a) = false :=
        hfail a (Nat.le_refl a) (by omega)
      rw [show a + (j + 1) = a + 1 + j from by omega] at havail ⊢
      have hrec := ih f (a + 1) (by omega)
        (fun k hk1 hk2 => hfail k (by omega) (by omega)) havail
      simp [guscAux, h0, hrec]

theorem guscAux_exhaust (seed : Option String) (rands : Nat → Nat → Fin 31)
    (lookup : Nat → LookupResult) :
    ∀ (fuel a : Nat),
      (∀ k, a ≤ k → k < a + fuel → isCodeAvailable (lookup k) = false) →
      guscAux seed rands lookup fuel a
        = (generateShortCode none (rands (a + fuel)), a + fuel) := by
  intro fuel
  induction fuel with
  | zero => intro a h; simp [guscAux]
  | succ f ih =>
    intro a h
    have h0 : isCodeAvailable (lookup a) = false := h a (Nat.le_refl a) (by omega)
    rw [show a + (f + 1) = a + 1 + f from by omega]
    have hrec := ih (a + 1) (fun k hk1 hk2 => h k (by omega) (by omega))
    simp [guscAux, h0, hrec]

theorem guscAux_count_le (seed : Option String) (rands : Nat → Nat → Fin 31)
    (lookup : Nat → LookupResult) :
    ∀ (fuel a : Nat), (guscAux seed rands lookup fuel a).2 ≤ a + fuel := by
  intro fuel
  induction fuel with
  | zero => intro a; simp [guscAux]
  | succ f ih =>
    intro a
    by_cases h : isCodeAvailable (lookup a) = true
    · simp [guscAux, h]
    · have h' : isCodeAvailable (lookup a) = false := by
        simpa using h
      have := ih (a + 1)
      simp [guscAux, h']
      omega

/-- C1: `generateUniqueShortCode` performs at most 10 lookups; when the
lookup stub first reports "no rows" (`PGRST116`) on lookup index `n`
(0-based, i.e. the `n+1`-st attempt) with `n < 10`, exactly `n+1` lookups
occur and the code generated by that attempt is returned; when no attempt
reports "no rows", exactly 10 lookups occur and one final seedless code is
generated and returned with no further lookup. -/
theorem claim_C1 (seed : Option String) (rands : Nat → Nat → Fin 31)
    (lookup : Nat → LookupResult) (n : Nat) :
    (generateUniqueShortCode seed rands lookup).2 ≤ maxAttempts
    ∧ (n < maxAttempts →
        (∀ k, k < n → isCodeAvailable (lookup k) = false) →
        isCodeAvailable (lookup n) = true →
        generateUniqueShortCode seed rands lookup
          = (generateShortCode seed (rands n), n + 1))
    ∧ ((∀ k, k < maxAttempts → isCodeAvailable (lookup k) = false) →
        generateUniqueShortCode seed rands lookup
          = (generateShortCode none (rands maxAttempts), maxAttempts)) := by
  refine ⟨?_, fun hlt hfail havail => ?_, fun hfail => ?_⟩
  · simpa [generateUniqueShortCode] using
      guscAux_count_le seed rands lookup maxAttempts 0
  · have := guscAux_success seed rands lookup n maxAttempts 0 hlt
      (fun k hk1 hk2 => hfail k (by omega)) (by simpa using havail)
    simpa [generateUniqueShortCode] using this
  · have := guscAux_exhaust seed rands lookup maxAttempts 0
      (fun k hk1 hk2 => hfail k (by omega))
    simpa [generateUniqueShortCode] using this

theorem claim_C1_witness :
    generateUniqueShortCode (some "hack") randsZero lookupAvailAt2
      = (generateShortCode (some "hack") (randsZero 2), 3)
    ∧ generateUniqueShortCode (some "hack") randsZero lookupNeverAvail
      = (generateShortCode none (randsZero 10), 10) :=
  ⟨(claim_C1 (some "hack") randsZero lookupAvailAt2 2).2.1 (by decide)
      (by decide) (by decide),
   (claim_C1 (some "hack") randsZero lookupNeverAvail 0).2.2 (by decide)⟩

/-- C4: a lookup attempt is accepted as available exactly when the lookup
result carries an error with code `PGRST116`; in that case the loop
returns the code of that attempt at once, and in every other case (a found row,
or an error with any other code) the loop consumes one retry and goes on. -/
theorem claim_C4 (seed : Option String) (rands : Nat → Nat → Fin 31)
    (lookup : Nat → LookupResult) (fuel attempts : Nat) :
    (isCodeAvailable (lookup attempts) = true
      ↔ (lookup attempts).error = some "PGRST116")
    ∧ ((lookup attempts).error = some "PGRST116" →
        guscAux seed rands lookup (fuel + 1) attempts
          = (generateShortCode seed (rands attempts), attempts + 1))
    ∧ ((lookup attempts).error ≠ some "PGRST116" →
        guscAux seed rands lookup (fuel + 1) attempts
          = guscAux seed rands lookup fuel (attempts + 1)) := by
  have hiff : isCodeAvailable (lookup attempts) = true
      ↔ (lookup attempts).error = some "PGRST116" := by
    unfold isCodeAvailable
    cases h : (lookup attempts).error with
    | none => simp
    | some c => simp [beq_iff_eq]
  refine ⟨hiff, fun h => ?_, fun h => ?_⟩
  · have havail := hiff.mpr h
    simp [guscAux, havail]
  · have hnot : isCodeAvailable (lookup attempts) = false := by
      cases hb : isCodeAvailable (lookup attempts)
      · rfl
      · exact absurd (hiff.mp hb) h
    simp [guscAux, hnot]

/-! Shareable-URL helpers. -/

theorem matchAt_ne_slash (a : Char) (l : List Char) (h : ¬ a = '/') :
    matchAt (a :: l) = none := by
  match l with
  | [] => rfl
  | [b] => rfl
  | b :: c :: rest => simp [matchAt, h]

theorem findMatch_step_ne (a : Char) (l : List Char) (h : ¬ a = '/') :
    findMatch (a :: l) = findMatch l := by
  rw [findMatch, matchAt_ne_slash a l h]

theorem matchAt_not_e (a b c : Char) (l : List Char) (h : ¬ (b = 'e' ∨ b = 'E')) :
    matchAt (a :: b :: c :: l) = none := by
  simp [matchAt]
  intro _
  exact fun hb => absurd hb h

theorem findMatch_step_not_e (a b c : Char) (l : List Char)
    (h : ¬ (b = 'e' ∨ b = 'E')) :
    findMatch (a :: b :: c :: l) = findMatch (b :: c :: l) := by
  rw [findMatch, matchAt_not_e a b c l h]

theorem takeWhile_all {p : Char → Bool} :
    ∀ l : List Char, (∀ c ∈ l, p c = true) → l.takeWhile p = l := by
  intro l h
  induction l with
  | nil => rfl
  | cons x xs ih =>
    rw [List.takeWhile_cons, h x (List.mem_cons_self x xs)]
    simp [ih (fun c hc => h c (List.mem_cons_of_mem x hc))]

theorem matchAt_hit (l : List Char) (h1 : l ≠ [])
    (h2 : ∀ c ∈ l, isCodeChar c = true) :
    matchAt ('/' :: 'e' :: '/' :: l) = some l := by
  simp only [matchAt]
  simp only [takeWhile_all l h2]
  simp [h1]

theorem findMatch_hit (l : List Char) (h1 : l ≠ [])
    (h2 : ∀ c ∈ l, isCodeChar c = true) :
    findMatch ('/' :: 'e' :: '/' :: l) = some l := by
  rw [findMatch, matchAt_hit l h1 h2]

theorem findMatch_skip_origin (l : List Char) :
    findMatch ("https://polkarena.montaq.org/e/".data ++ l)
      = findMatch ('/' :: 'e' :: '/' :: l) := by
  show findMatch ('h' :: 't' :: 't' :: 'p' :: 's' :: ':' :: '/' :: '/' :: 'p' :: 'o' ::
      'l' :: 'k' :: 'a' :: 'r' :: 'e' :: 'n' :: 'a' :: '.' :: 'm' :: 'o' :: 'n' :: 't' ::
      'a' :: 'q' :: '.' :: 'o' :: 'r' :: 'g' :: '/' :: 'e' :: '/' :: l) = _
  rw [findMatch_step_ne 'h' _ (by decide), findMatch_step_ne 't' _ (by decide),
      findMatch_step_ne 't' _ (by decide), findMatch_step_ne 'p' _ (by decide),
      findMatch_step_ne 's' _ (by decide), findMatch_step_ne ':' _ (by decide),
      findMatch_step_not_e '/' '/' 'p' _ (by decide),
      findMatch_step_not_e '/' 'p' 'o' _ (by decide),
      findMatch_step_ne 'p' _ (by decide), findMatch_step_ne 'o' _ (by decide),
      findMatch_step_ne 'l' _ (by decide), findMatch_step_ne 'k' _ (by decide),
      findMatch_step_ne 'a' _ (by decide), findMatch_step_ne 'r' _ (by decide),
      findMatch_step_ne 'e' _ (by decide), findMatch_step_ne 'n' _ (by decide),
      findMatch_step_ne 'a' _ (by decide), findMatch_step_ne '.' _ (by decide),
      findMatch_step_ne 'm' _ (by decide), findMatch_step_ne 'o' _ (by decide),
      findMatch_step_ne 'n' _ (by decide), findMatch_step_ne 't' _ (by decide),
      findMatch_step_ne 'a' _ (by decide), findMatch_step_ne 'q' _ (by decide),
      findMatch_step_ne '.' _ (by decide), findMatch_step_ne 'o' _ (by decide),
      findMatch_step_ne 'r' _ (by decide), findMatch_step_ne 'g' _ (by decide)]

theorem alphabet_isCodeChar : ∀ c ∈ alphabet, isCodeChar c = true := by decide

/-- C7: extracting the short code back out of the shareable URL built with no
base override returns exactly the code, for every non-empty code made of
alphabet characters. -/
theorem claim_C7 (code : String) (hne : code ≠ "")
    (hmem : ∀ c ∈ code.data, c ∈ alphabet) :
    extractShortCodeFromURL (createShareableEventURL code none) = some code := by
  have hdata : (createShareableEventURL code none).data
      = "https://polkarena.montaq.org/e/".data ++ code.data := by
    show (fallbackOrigin ++ "/e/" ++ code).data = _
    rw [String.data_append, String.data_append]
    rfl
  have hne2 : code.data ≠ [] := by
    intro h
    exact hne (by cases code with | mk d => simp at h; simp [h])
  unfold extractShortCodeFromURL
  rw [hdata, findMatch_skip_origin,
      findMatch_hit code.data hne2 (fun c hc => alphabet_isCodeChar c (hmem c hc))]
  rfl

theorem claim_C7_witness :
    extractShortCodeFromURL (createShareableEventURL "abc2345" none)
      = some "abc2345" :=
  claim_C7 "abc2345" (by decide) (by decide)

/-! Duration formatter. -/

/-- C8: `formatEventDuration` depends only on the difference of its
arguments, and the five specified spans render exactly as claimed
(90 min, 60 min, 45 min, 61 min and 1 min, given in milliseconds). -/
theorem claim_C8 :
    (∀ s e : Int, formatEventDuration s e = formatEventDuration 0 (e - s))
    ∧ formatEventDuration 0 5400000 = "1 hour 30 minutes"
    ∧ formatEventDuration 0 3600000 = "1 hour"
    ∧ formatEventDuration 0 2700000 = "45 minutes"
    ∧ formatEventDuration 0 3660000 = "1 hour 1 minute"
    ∧ formatEventDuration 0 60000 = "1 minute" := by
  refine ⟨fun s e => ?_, by decide, by decide, by decide, by decide, by decide⟩
  simp [formatEventDuration]

theorem claim_C4_witness :
    guscAux (some "ev") randsZero lookupPG 10 0
      = (generateShortCode (some "ev") (randsZero 0), 1)
    ∧ guscAux (some "ev") randsZero lookupErr500 10 0
      = guscAux (some "ev") randsZero lookupErr500 9 1 :=
  ⟨(claim_C4 (some "ev") randsZero lookupPG 9 0).2.1 rfl,
   (claim_C4 (some "ev") randsZero lookupErr500 9 0).2.2 (by decide)⟩

/-! Event-creation submission. -/

theorem handleSubmit_ok (fd : FormData) (cfs : List CustomField)
    (parseDate : String → Option Int) (parseIntJS : String → Int) (now : Int)
    (userId : String) (profileName userEmail : Option String) (shortCode : String)
    (p : EventData) (calls : List ExtCall)
    (h : handleSubmit fd cfs parseDate parseIntJS now userId profileName userEmail shortCode
      = (Except.ok p, calls)) :
    ∃ s e rd, validateDates fd parseDate now = Except.ok (s, e, rd)
      ∧ p = mkEventData fd cfs parseIntJS userId profileName userEmail shortCode s e rd
      ∧ calls = [ExtCall.profileLookup, ExtCall.shortCodeLookup, ExtCall.insertEvent] := by
  unfold handleSubmit at h
  cases hv : validateDates fd parseDate now with
  | error msg => rw [hv] at h; simp at h
  | ok t =>
    obtain ⟨s, e, rd⟩ := t
    rw [hv] at h
    simp at h
    exact ⟨s, e, rd, rfl, h.1.symm, h.2.symm⟩

/-- C5: every local validation failure aborts `handleSubmit` before any
external call: with the required fields filled and parseable dates, an end
time equal to the start time is rejected with its message and an empty
external-call trace, and likewise a registration deadline at or after the
start time. -/
theorem claim_C5 (fd : FormData) (cfs : List CustomField)
    (parseDate : String → Option Int) (parseIntJS : String → Int) (now : Int)
    (userId : String) (profileName userEmail : Option String) (shortCode : String)
    (t t2 d : Int)
    (hname : fd.name ≠ "") (hdesc : fd.description ≠ "")
    (hst : fd.start_time ≠ "") (het : fd.end_time ≠ "") :
    (parseDate fd.start_time = some t → parseDate fd.end_time = some t →
      now ≤ t →
      handleSubmit fd cfs parseDate parseIntJS now userId profileName userEmail shortCode
        = (Except.error "End time must be after start time", []))
    ∧ (parseDate fd.start_time = some t → parseDate fd.end_time = some t2 →
      now ≤ t → t < t2 → fd.registration_deadline ≠ "" →
      parseDate fd.registration_deadline = some d → t ≤ d →
      handleSubmit fd cfs parseDate parseIntJS now userId profileName userEmail shortCode
        = (Except.error "Registration deadline must be before start time", [])) := by
  constructor
  · intro h1 h2 h3
    have h4 : ¬ (t < now) := by omega
    simp [handleSubmit, validateDates, hname, hdesc, hst, het, h1, h2, h4]
  · intro h1 h2 h3 h4 h5 h6 h7
    have h8 : ¬ (t < now) := by omega
    have h9 : ¬ (t2 ≤ t) := by omega
    simp [handleSubmit, validateDates, hname, hdesc, hst, het, h1, h2, h5, h6, h7, h8, h9]

theorem claim_C5_witness :
    handleSubmit fdEqualTimes [] parseDateEx parseIntEx 0 "user" none none "c"
      = (Except.error "End time must be after start time", [])
    ∧ handleSubmit fdBadDeadline [] parseDateEx parseIntEx 0 "user" none none "c"
      = (Except.error "Registration deadline must be before start time", []) :=
  ⟨(claim_C5 fdEqualTimes [] parseDateEx parseIntEx 0 "user" none none "c" 1000 2000 0
      (by decide) (by decide) (by decide) (by decide)).1 (by decide) (by decide) (by decide),
   (claim_C5 fdBadDeadline [] parseDateEx parseIntEx 0 "user" none none "c" 1000 2000 1500
      (by decide) (by decide) (by decide) (by decide)).2 (by decide) (by decide) (by decide)
      (by decide) (by decide) (by decide) (by decide)⟩

/-- C6: in a submitted payload the tags attribute is the comma-split,
trimmed, empty-dropping list of the tags string, stored as null when that
list is empty — in particular for the empty tags string. -/
theorem claim_C6 (fd : FormData) (cfs : List CustomField)
    (parseDate : String → Option Int) (parseIntJS : String → Int) (now : Int)
    (userId : String) (profileName userEmail : Option String) (shortCode : String)
    (p : EventData) (calls : List ExtCall)
    (h : handleSubmit fd cfs parseDate parseIntJS now userId profileName userEmail shortCode
      = (Except.ok p, calls)) :
    p.tags = (if tagsArrayOf fd.tags = [] then none else some (tagsArrayOf fd.tags))
    ∧ (fd.tags = "" → p.tags = none) := by
  obtain ⟨s, e, rd, -, rfl, -⟩ :=
    handleSubmit_ok fd cfs parseDate parseIntJS now userId profileName userEmail shortCode
      p calls h
  constructor
  · by_cases hz : tagsArrayOf fd.tags = []
    · simp [mkEventData, hz]
    · simp [mkEventData, hz, List.length_pos.mpr hz]
  · intro ht
    have hz : tagsArrayOf fd.tags = [] := by rw [ht]; decide
    simp [mkEventData, hz]

theorem claim_C6_witness :
    (mkEventData fdValid [] parseIntEx "u" none none "code" 1000 2000 none).tags
      = (if tagsArrayOf fdValid.tags = []
          then none else some (tagsArrayOf fdValid.tags))
    ∧ (fdValid.tags = "" →
        (mkEventData fdValid [] parseIntEx "u" none none "code" 1000 2000 none).tags
          = none) :=
  claim_C6 fdValid [] parseDateEx parseIntEx 0 "u" none none "code"
    (mkEventData fdValid [] parseIntEx "u" none none "code" 1000 2000 none)
    [ExtCall.profileLookup, ExtCall.shortCodeLookup, ExtCall.insertEvent]
    rfl

/-- C9: in a submitted payload every optional free-text field whose form
value is empty is stored as null and otherwise as its string, and the
participant limit is null when empty and the parsed integer otherwise. -/
theorem claim_C9 (fd : FormData) (cfs : List CustomField)
    (parseDate : String → Option Int) (parseIntJS : String → Int) (now : Int)
    (userId : String) (profileName userEmail : Option String) (shortCode : String)
    (p : EventData) (calls : List ExtCall)
    (h : handleSubmit fd cfs parseDate parseIntJS now userId profileName userEmail shortCode
      = (Except.ok p, calls)) :
    (fd.location = "" → p.location = none)
    ∧ (fd.location ≠ "" → p.location = some fd.location)
    ∧ (fd.website_url = "" → p.website_url = none)
    ∧ (fd.website_url ≠ "" → p.website_url = some fd.website_url)
    ∧ (fd.discord_url = "" → p.discord_url = none)
    ∧ (fd.discord_url ≠ "" → p.discord_url = some fd.discord_url)
    ∧ (fd.twitter_url = "" → p.twitter_url = none)
    ∧ (fd.twitter_url ≠ "" → p.twitter_url = some fd.twitter_url)
    ∧ (fd.requirements = "" → p.requirements = none)
    ∧ (fd.requirements ≠ "" → p.requirements = some fd.requirements)
    ∧ (fd.banner_image_url = "" → p.banner_image_url = none)
    ∧ (fd.banner_image_url ≠ "" → p.banner_image_url = some fd.banner_image_url)
    ∧ (fd.participant_limit = "" → p.participant_limit = none)
    ∧ (fd.participant_limit ≠ "" →
        p.participant_limit = some (parseIntJS fd.participant_limit)) := by
  obtain ⟨s, e, rd, -, rfl, -⟩ :=
    handleSubmit_ok fd cfs parseDate parseIntJS now userId profileName userEmail shortCode
      p calls h
  refine ⟨fun hx => ?_, fun hx => ?_, fun hx => ?_, fun hx => ?_, fun hx => ?_,
    fun hx => ?_, fun hx => ?_, fun hx => ?_, fun hx => ?_, fun hx => ?_,
    fun hx => ?_, fun hx => ?_, fun hx => ?_, fun hx => ?_⟩ <;>
    simp [mkEventData, strOrNull, hx]

theorem claim_C9_witness :
    (mkEventData fdWithExtras [] parseIntEx "u" none none "code" 1000 2000 none).location
      = some "Berlin"
    ∧ (mkEventData fdWithExtras [] parseIntEx "u" none none "code" 1000 2000
        none).participant_limit = some 25
    ∧ (mkEventData fdWithExtras [] parseIntEx "u" none none "code" 1000 2000
        none).website_url = none := by
  have A := claim_C9 fdWithExtras [] parseDateEx parseIntEx 0 "u" none none "code"
    (mkEventData fdWithExtras [] parseIntEx "u" none none "code" 1000 2000 none)
    [ExtCall.profileLookup, ExtCall.shortCodeLookup, ExtCall.insertEvent]
    rfl
  obtain ⟨h1, h2, h3, h4, h5, h6, h7, h8, h9, h10, h11, h12, h13, h14⟩ := A
  exact ⟨h2 (by decide), h14 (by decide), h3 (by decide)⟩

/-- C10: `handleSubmit` validates nothing about the custom-field list: the
error outcome is the same for any two lists, on success the list is passed
through unchanged (stored as null only when empty), and in particular the
default entry appended by `addCustomField` — empty display name, type
`"text"`, not required, empty options — is submitted as is. -/
theorem claim_C10 (fd : FormData) (cfs cfs2 : List CustomField)
    (parseDate : String → Option Int) (parseIntJS : String → Int) (now : Int)
    (userId : String) (profileName userEmail : Option String) (shortCode : String)
    (i : String) :
    (∀ msg,
      (handleSubmit fd cfs parseDate parseIntJS now userId profileName userEmail
          shortCode).1 = Except.error msg
        ↔ (handleSubmit fd cfs2 parseDate parseIntJS now userId profileName userEmail
          shortCode).1 = Except.error msg)
    ∧ (∀ p calls,
        handleSubmit fd cfs parseDate parseIntJS now userId profileName userEmail shortCode
          = (Except.ok p, calls) →
        p.custom_fields = if 0 < cfs.length then some cfs else none)
    ∧ (∀ p calls,
        handleSubmit fd [newCustomField i] parseDate parseIntJS now userId profileName
          userEmail shortCode = (Except.ok p, calls) →
        p.custom_fields = some [newCustomField i]) := by
  refine ⟨fun msg => ?_, fun p calls h => ?_, fun p calls h => ?_⟩
  · unfold handleSubmit
    cases hv : validateDates fd parseDate now with
    | error m => simp
    | ok t =>
      obtain ⟨s, e, rd⟩ := t
      simp
  · obtain ⟨s, e, rd, -, rfl, -⟩ :=
      handleSubmit_ok fd cfs parseDate parseIntJS now userId profileName userEmail shortCode
        p calls h
    simp [mkEventData]
  · obtain ⟨s, e, rd, -, rfl, -⟩ :=
      handleSubmit_ok fd [newCustomField i] parseDate parseIntJS now userId profileName
        userEmail shortCode p calls h
    simp [mkEventData]

theorem claim_C10_witness :
    ((handleSubmit fdValid [newCustomField "1"] parseDateEx parseIntEx 0 "u" none none
        "code").1 = Except.error "x"
      ↔ (handleSubmit fdValid [] parseDateEx parseIntEx 0 "u" none none
        "code").1 = Except.error "x")
    ∧ (mkEventData fdValid [newCustomField "1"] parseIntEx "u" none none "code" 1000 2000
        none).custom_fields = some [newCustomField "1"] := by
  have A := claim_C10 fdValid [newCustomField "1"] [] parseDateEx parseIntEx 0 "u"
    none none "code" "1"
  exact ⟨A.1 "x",
    A.2.2 (mkEventData fdValid [newCustomField "1"] parseIntEx "u" none none "code"
        1000 2000 none)
      [ExtCall.profileLookup, ExtCall.shortCodeLookup, ExtCall.insertEvent] rfl⟩

end PolkArena
